import Mathlib

/-!
# Verification of the phost deployment/version lifecycle

Shallow embedding of `src/server/serversite/views.py` (together with the
schema from `src/server/serversite/migrations/0001_initial.py`).  Pieces of
the repository that are imported by `views.py` but absent from `src/`
(`models.py`, `upload.py`, `validation.py`, `forms.py`, `serialize.py`) are
modelled from the spec where needed; each such definition carries a doc
comment starting with `Modelled from the spec:`.

Conventions of the embedding:
* Django model rows become Lean structures; querysets become `List`s kept in
  insertion order (the models' `Meta.ordering = ['created_on']` is represented
  by that order, since rows are only ever appended).
* Python exceptions become the `Exc` inductive; a view body returns
  `Except Exc α` together with the resulting server state (state is returned
  even on error because filesystem effects are not rolled back).
* `with transaction.atomic():` becomes the `atomic` combinator: on an error
  escaping the block the database component of the state is restored to its
  value at block entry, while filesystem effects persist.
* Fallible filesystem operations (archive extraction, symlink update) take an
  explicit success/failure oracle argument (`extract_ok`, `symlink_ok`),
  reflecting the spec's `Result<void, IOError>` contract for the archive
  store; every filesystem helper also records the call it represents in a
  trace, so that "the operation was invoked" is expressible.
-/

namespace Phost

/-- A row of `serversite_staticdeployment`: `id` (auto primary key), `name`
(unique), `subdomain` (unique slug).  `created_on` is represented by the
position of the row in the deployments list (rows are only appended). -/
structure StaticDeployment where
  id : Nat
  name : String
  subdomain : String
deriving Repr, DecidableEq

/-- A row of `serversite_deploymentversion`: `id` (auto primary key),
`version` label, foreign key to its deployment, and the `active` flag used by
`views.py` (the flag is part of the model; the initial migration in `src/`
predates it). -/
structure DeploymentVersion where
  id : Nat
  version : String
  deploymentId : Nat
  active : Bool
deriving Repr, DecidableEq

/-- The database tables plus the auto-increment counters. -/
structure DB where
  deployments : List StaticDeployment
  versions : List DeploymentVersion
  nextDeploymentId : Nat
  nextVersionId : Nat
deriving Repr, DecidableEq

/-- One recorded call to the filesystem layer (`upload.py`). -/
inductive FsCall where
  /-- `handle_uploaded_static_archive(file, subdomain, version, init)` -/
  | extract (subdomain version : String) (init : Bool)
  /-- `update_symlink(name, version)` -/
  | updateSymlink (name version : String)
  /-- `delete_hosted_deployment(...)`: remove the whole hosting directory -/
  | deleteDeployment (subdomain : String)
  /-- `delete_hosted_version(name, version)`: remove one version subpath -/
  | deleteVersionDir (subdomain version : String)
deriving Repr, DecidableEq

/-- Modelled from the spec: the filesystem mirror kept by `upload.py` (absent
from `src/`).  `dirs` are the extracted version directories, keyed by the
deployment's subdomain and the version label ("a directory keyed by
`subdomain`", with a "version-specific subpath"); `links` is the per-
deployment "latest" pointer (`updatePointer(deploymentName, targetVersion)`);
`calls` is the trace of filesystem operations issued so far. -/
structure FS where
  dirs : List (String × String)
  links : List (String × String)
  calls : List FsCall
deriving Repr, DecidableEq

/-- The whole server state: database plus filesystem mirror. -/
structure ServerState where
  db : DB
  fs : FS
deriving Repr, DecidableEq

/-- The exceptions that can escape a view body, before the
`with_caught_exceptions` decorator maps them to HTTP responses.  The first
four come from `validation.py`; the rest are Django/Python exceptions that
reach the decorator's generic `except Exception` arm. -/
inductive Exc where
  | badInput (msg : String)
  | notFound
  | notAuthenticated
  | invalidCredentials
  /-- Python `ValueError`, e.g. from `int()` coercion of a non-numeric value -/
  | valueError
  /-- an `IOError`-like failure from the archive store (`upload.py`) -/
  | ioError
  /-- `StopIteration` from `next(...)` on an exhausted generator -/
  | stopIteration
  /-- `Model.DoesNotExist` from `Model.objects.get` with no match -/
  | doesNotExist
  /-- `MultipleObjectsReturned` from `Model.objects.get` with several matches -/
  | multipleObjectsReturned
  /-- `django.db.utils.IntegrityError` -/
  | integrityError (msg : String)
deriving Repr, DecidableEq

/-- The HTTP responses produced by the `with_caught_exceptions` decorator for
an exception escaping the view body. -/
inductive ErrResponse where
  | badRequest (msg : String)
  | notFoundResp
  | forbidden (msg : String)
  | serverError (msg : String)
deriving Repr, DecidableEq

/-- `with_caught_exceptions`: maps each exception escaping a view body to the
HTTP response returned to the caller.  Anything that is not one of the four
`validation.py` exceptions falls into the generic `except Exception` arm and
becomes a 500. -/
def with_caught_exceptions : Exc → ErrResponse
  | .badInput msg => .badRequest msg
  | .notFound => .notFoundResp
  | .notAuthenticated => .forbidden "You must be logged into access this view"
  | .invalidCredentials => .forbidden "Invalid username or password provided"
  | _ => .serverError "An unhandled error occured while processing the request"

/-- The spec's `ConflictError` kind (§7): in the code both uniqueness
violations are raised as `BadInputException` with these exact messages, which
the response layer maps to the client-error class. -/
def isConflictError : Exc → Bool
  | .badInput msg =>
      msg == "The new version name must be unique." ||
      msg == "`name` and `subdomain` must be unique!"
  | _ => false

/-- `with transaction.atomic():` — run the body; if an exception escapes the
block, roll the database back to its state at entry.  Filesystem effects made
inside the block persist (they are not under the data store's atomicity). -/
def atomic (st : ServerState) (body : ServerState → Except Exc α × ServerState) :
    Except Exc α × ServerState :=
  match body st with
  | (.ok a, st') => (.ok a, st')
  | (.error e, st') => (.error e, { st' with db := st.db })

/-- Whether the first character list is a prefix of the second. -/
def charsPrefix : List Char → List Char → Bool
  | [], _ => true
  | _ :: _, [] => false
  | a :: as, b :: bs => a == b && charsPrefix as bs

/-- Whether the first character list occurs contiguously in the second. -/
def charsContain (needle : List Char) : List Char → Bool
  | [] => charsPrefix needle []
  | b :: bs => charsPrefix needle (b :: bs) || charsContain needle bs

/-- Python's `needle in haystack` substring test. -/
def py_in (needle haystack : String) : Bool :=
  charsContain needle.data haystack.data

/-- Decimal value of a digit character list, most significant first. -/
def charsToNat (acc : Nat) : List Char → Nat
  | [] => acc
  | c :: cs => charsToNat (acc * 10 + (c.toNat - 48)) cs

/-- Whether a character is ASCII whitespace, the characters Python's `int()`
strips from both ends of its argument. -/
def isPySpace (c : Char) : Bool :=
  c == ' ' || c == '\t' || c == '\n' || c == '\r' || c.toNat == 11 || c.toNat == 12

/-- Python's `int(s)` for a decimal string: surrounding whitespace stripped,
one optional sign, then a non-empty run of ASCII decimal digits; `none`
models the `ValueError` raised otherwise (digit-grouping underscores and
non-ASCII digits are not modelled). -/
def py_int? (s : String) : Option Int :=
  let cs := ((s.data.dropWhile isPySpace).reverse.dropWhile isPySpace).reverse
  match cs with
  | '-' :: rest =>
    if !rest.isEmpty && rest.all (fun c => c.isDigit) then
      some (-(charsToNat 0 rest : Int))
    else none
  | '+' :: rest =>
    if !rest.isEmpty && rest.all (fun c => c.isDigit) then
      some ((charsToNat 0 rest : Int))
    else none
  | _ =>
    if !cs.isEmpty && cs.all (fun c => c.isDigit) then
      some ((charsToNat 0 cs : Int))
    else none

/-- `Model.objects.get(**kwargs)` over a list of rows: exactly one match is
returned; zero matches raise `DoesNotExist`; several raise
`MultipleObjectsReturned`. -/
def objects_get (p : α → Bool) (xs : List α) : Except Exc α :=
  match xs.filter p with
  | [] => .error .doesNotExist
  | [x] => .ok x
  | _ => .error .multipleObjectsReturned

/-- `get_or_none(Model, **kwargs)` with the default `do_raise=True` (every
call site in `views.py` uses the default): a `DoesNotExist` is converted into
`NotFound`. -/
def get_or_none (p : α → Bool) (xs : List α) : Except Exc α :=
  match objects_get p xs with
  | .error .doesNotExist => .error .notFound
  | r => r

/-- `get_query_dict(query_string, req)`: read `lookupField` from the query
string, defaulting to `"id"`; reject anything outside
`["id", "subdomain", "name"]`; otherwise return the pair
`(lookup_field, query_string)` standing for `{lookup_field: query_string}`. -/
def get_query_dict (lookupFieldParam : Option String) (query_string : String) :
    Except Exc (String × String) :=
  let lookup_field := lookupFieldParam.getD "id"
  if lookup_field == "id" || lookup_field == "subdomain" || lookup_field == "name" then
    .ok (lookup_field, query_string)
  else
    .error (.badInput "The supplied `lookupField` was invalid")

/-- Whether a deployment row matches the query dict `{field: value}`.  For the
`id` field the value is coerced to an integer with `int()`, as the ORM does
for an integer primary key; `name` and `subdomain` compare as strings. -/
def lookupMatches (q : String × String) (d : StaticDeployment) : Bool :=
  if q.1 == "id" then py_int? q.2 == some (d.id : Int)
  else if q.1 == "subdomain" then d.subdomain == q.2
  else d.name == q.2

/-- The deployment lookup `get_or_none(StaticDeployment, **query_dict)` as the
views perform it.  For the `id` field Django first coerces the value with
`int()` (`AutoField.get_prep_value`); the `ValueError` raised by a
non-numeric value escapes `get_or_none`, which catches only `DoesNotExist`.
Otherwise rows are matched per `lookupMatches`. -/
def get_deployment (query_dict : String × String) (xs : List StaticDeployment) :
    Except Exc StaticDeployment :=
  if query_dict.1 == "id" && (py_int? query_dict.2).isNone then
    .error .valueError
  else
    get_or_none (lookupMatches query_dict) xs

/-- Modelled from the spec: `validate_deployment_name` from `validation.py`
(absent from `src/`) — the name must be non-empty and bounded (the column is
`CharField(max_length=255)`); otherwise a `ValidationError`
(`BadInputException`). -/
def validate_deployment_name (name : String) : Except Exc Unit :=
  if name.length = 0 || name.length > 255 then
    .error (.badInput "Invalid deployment name")
  else .ok ()

/-- Whether a character is allowed in a slug (letters, digits, hyphen,
underscore). -/
def isSlugChar (c : Char) : Bool :=
  c.isAlphanum || c == '-' || c == '_'

/-- Modelled from the spec: `validate_subdomain` from `validation.py` (absent
from `src/`) — the subdomain must be non-empty, bounded
(`SlugField(max_length=64)`), and restricted to the slug charset; otherwise a
`ValidationError` (`BadInputException`). -/
def validate_subdomain (subdomain : String) : Except Exc Unit :=
  if subdomain.length = 0 || subdomain.length > 64 || !subdomain.data.all isSlugChar then
    .error (.badInput "Invalid subdomain")
  else .ok ()

/-- `StaticDeployment(name=..., subdomain=...).save()`: the unique indexes on
`name` and `subdomain` make the insert fail with an `IntegrityError` whose
message contains `Duplicate entry` when a row with the same name or subdomain
exists; otherwise the row is appended with the next auto-increment id. -/
def save_deployment (db : DB) (name subdomain : String) :
    Except Exc (StaticDeployment × DB) :=
  if db.deployments.any (fun d => d.name == name || d.subdomain == subdomain) then
    .error (.integrityError "Duplicate entry for unique column")
  else
    let d : StaticDeployment := ⟨db.nextDeploymentId, name, subdomain⟩
    .ok (d, { db with
      deployments := db.deployments ++ [d],
      nextDeploymentId := db.nextDeploymentId + 1 })

/-- `DeploymentVersion(version=..., deployment=..., active=...).save()`: no
uniqueness constraint at the schema level; the row is appended with the next
auto-increment id. -/
def save_version (db : DB) (label : String) (deploymentId : Nat) (active : Bool) :
    DeploymentVersion × DB :=
  let v : DeploymentVersion := ⟨db.nextVersionId, label, deploymentId, active⟩
  (v, { db with
    versions := db.versions ++ [v],
    nextVersionId := db.nextVersionId + 1 })

/-- Modelled from the spec: `handle_uploaded_static_archive(file, subdomain,
version, init)` from `upload.py` (absent from `src/`) — extract the archive
into the directory keyed by `subdomain` and the version label.  The call is
recorded; on failure (`extract_ok = false`) an `IOError` is raised and no
directory is created. -/
def handle_uploaded_static_archive (st : ServerState) (subdomain version : String)
    (init extract_ok : Bool) : Except Exc Unit × ServerState :=
  let st := { st with fs := { st.fs with
    calls := st.fs.calls ++ [.extract subdomain version init] } }
  if extract_ok then
    (.ok (), { st with fs := { st.fs with
      dirs := st.fs.dirs ++ [(subdomain, version)] } })
  else
    (.error .ioError, st)

/-- Modelled from the spec: `update_symlink(name, version)` from `upload.py`
(absent from `src/`) — repoint the deployment's `latest` pointer to the given
version (`updatePointer(deploymentName, targetVersion)`).  The call is
recorded; on failure (`symlink_ok = false`) an `IOError` is raised and the
pointer is unchanged. -/
def update_symlink (st : ServerState) (name version : String) (symlink_ok : Bool) :
    Except Exc Unit × ServerState :=
  let st := { st with fs := { st.fs with
    calls := st.fs.calls ++ [.updateSymlink name version] } }
  if symlink_ok then
    (.ok (), { st with fs := { st.fs with
      links := (st.fs.links.filter (fun l => l.1 != name)) ++ [(name, version)] } })
  else
    (.error .ioError, st)

/-- Modelled from the spec: `delete_hosted_deployment` from `upload.py`
(absent from `src/`) — remove the deployment's entire hosting directory
(every extracted version directory under its subdomain) and its `latest`
pointer. -/
def delete_hosted_deployment (st : ServerState) (d : StaticDeployment) : ServerState :=
  { st with fs := { st.fs with
    calls := st.fs.calls ++ [.deleteDeployment d.subdomain],
    dirs := st.fs.dirs.filter (fun p => p.1 != d.subdomain),
    links := st.fs.links.filter (fun l => l.1 != d.name) } }

/-- Modelled from the spec: `delete_hosted_version(name, version)` from
`upload.py` (absent from `src/`) — remove only that version's filesystem
subpath under the deployment's hosting directory. -/
def delete_hosted_version (st : ServerState) (d : StaticDeployment) (version : String) :
    ServerState :=
  { st with fs := { st.fs with
    calls := st.fs.calls ++ [.deleteVersionDir d.subdomain version],
    dirs := st.fs.dirs.filter (fun p => !(p.1 == d.subdomain && p.2 == version)) } }

/-- Modelled from the spec: `StaticDeployment.get_url` from `models.py`
(absent from `src/`) — the deployment's canonical URL is derived from its
subdomain. -/
def get_url (d : StaticDeployment) : String := d.subdomain

/-- The JSON payload returned by a successful `Deployments.post`. -/
structure InitialUploadResp where
  name : String
  subdomain : String
  version : String
  url : String
deriving Repr, DecidableEq

/-- Truthiness of a Django model instance in Python: model classes define no
`__bool__`/`__len__`, so an instance is always truthy (this is the
`if old_version:` guard in `DeploymentVersionView.post`). -/
def pyTruthy (_v : DeploymentVersion) : Bool := true

/-- `Deployments.post` — the InitialUpload transition.  Validates the form
fields, then inside `transaction.atomic()` creates the deployment row, the
initial active version row, and extracts the archive; an `IntegrityError`
mentioning `Duplicate entry` is converted to the uniqueness
`BadInputException`.  `authed` is the `with_login_required` check;
`extract_ok` is the archive store's outcome. -/
def deployments_post (st : ServerState) (authed : Bool)
    (name subdomain version : String) (extract_ok : Bool) :
    Except Exc InitialUploadResp × ServerState :=
  if !authed then (.error .notAuthenticated, st) else
  match validate_deployment_name name with
  | .error e => (.error e, st)
  | .ok () =>
  match validate_subdomain subdomain with
  | .error e => (.error e, st)
  | .ok () =>
  let res := atomic st (fun s =>
    match save_deployment s.db name subdomain with
    | .error e => (.error e, s)
    | .ok (deployment_descriptor, db1) =>
      let (_version_model, db2) := save_version db1 version deployment_descriptor.id true
      let s := { s with db := db2 }
      match handle_uploaded_static_archive s subdomain version true extract_ok with
      | (.error e, s) => (.error e, s)
      | (.ok (), s) =>
        (.ok { name := name, subdomain := subdomain, version := version,
               url := get_url deployment_descriptor }, s))
  match res with
  | (.error (.integrityError msg), st') =>
      if py_in "Duplicate entry" msg then
        (.error (.badInput "`name` and `subdomain` must be unique!"), st')
      else
        (.error (.integrityError msg), st')
  | r => r

/-- The versions belonging to a deployment,
`DeploymentVersion.objects.filter(deployment=deployment)`, in creation
order. -/
def versionsOf (db : DB) (deploymentId : Nat) : List DeploymentVersion :=
  db.versions.filter (fun v => v.deploymentId == deploymentId)

/-- The serialized deployment returned by `Deployment.get`. -/
structure DeploymentData where
  id : Nat
  name : String
  subdomain : String
  versions : List String
  active_version : String
deriving Repr, DecidableEq

/-- `Deployment.get` — look the deployment up by the query dict, list its
versions, and find the active one with
`next(v for v in versions if v.active)` (first active in creation order;
`StopIteration` when none is active).  Read-only, so only the result is
returned. -/
def deployment_get (st : ServerState) (lookupFieldParam : Option String)
    (deployment_id : String) : Except Exc DeploymentData :=
  match get_query_dict lookupFieldParam deployment_id with
  | .error e => .error e
  | .ok query_dict =>
  match get_deployment query_dict st.db.deployments with
  | .error e => .error e
  | .ok deployment =>
  let versions := versionsOf st.db deployment.id
  match versions.find? (fun v => v.active) with
  | none => .error .stopIteration
  | some active_version =>
    .ok { id := deployment.id, name := deployment.name, subdomain := deployment.subdomain,
          versions := versions.map (fun v => v.version),
          active_version := active_version.version }

/-- `DeploymentVersionView.post` — the NewVersionUpload transition.  Resolve
the deployment, reject a duplicate version label, then inside
`transaction.atomic()`: fetch the active version with `objects.get`, mark it
inactive (guarded by the always-true `if old_version:`), insert the new
active version, extract the archive, and update the `latest` symlink — the
symlink update is the last step but still inside the atomic block. -/
def deployment_version_post (st : ServerState) (authed : Bool)
    (lookupFieldParam : Option String) (deployment_id version : String)
    (extract_ok symlink_ok : Bool) : Except Exc DeploymentVersion × ServerState :=
  if !authed then (.error .notAuthenticated, st) else
  match get_query_dict lookupFieldParam deployment_id with
  | .error e => (.error e, st)
  | .ok query_dict =>
  match get_deployment query_dict st.db.deployments with
  | .error e => (.error e, st)
  | .ok deployment =>
  if (st.db.versions.filter
      (fun v => v.deploymentId == deployment.id && v.version == version)) ≠ [] then
    (.error (.badInput "The new version name must be unique."), st)
  else
  atomic st (fun s =>
    match objects_get (fun v => v.deploymentId == deployment.id && v.active)
        s.db.versions with
    | .error e => (.error e, s)
    | .ok old_version =>
      let deactivated := s.db.versions.map
        (fun v => if v.id == old_version.id then { v with active := false } else v)
      let s := if pyTruthy old_version then
          { s with db := { s.db with versions := deactivated } }
        else s
      let (version_model, db2) := save_version s.db version deployment.id true
      let s := { s with db := db2 }
      match handle_uploaded_static_archive s deployment.subdomain version false extract_ok with
      | (.error e, s) => (.error e, s)
      | (.ok (), s) =>
      match update_symlink s deployment.name version symlink_ok with
      | (.error e, s) => (.error e, s)
      | (.ok (), s) => (.ok version_model, s))

/-- `DeploymentVersionView.delete` — the DeleteVersion transition.  Inside
`transaction.atomic()`: resolve the deployment, delete every version row
matching the label (a no-op filter when none matches), and if no version
rows remain delete the deployment row too; finally delete either the whole
hosting directory or just the version's subpath. -/
def deployment_version_delete (st : ServerState) (authed : Bool)
    (lookupFieldParam : Option String) (deployment_id version : String) :
    Except Exc Unit × ServerState :=
  if !authed then (.error .notAuthenticated, st) else
  atomic st (fun s =>
    match get_query_dict lookupFieldParam deployment_id with
    | .error e => (.error e, s)
    | .ok query_dict =>
    match get_deployment query_dict s.db.deployments with
    | .error e => (.error e, s)
    | .ok deployment =>
    let remaining := s.db.versions.filter
      (fun v => !(v.deploymentId == deployment.id && v.version == version))
    let s := { s with db := { s.db with versions := remaining } }
    let delete_deployment := (versionsOf s.db deployment.id).isEmpty
    let s := if delete_deployment then
        { s with db := { s.db with
          deployments := s.db.deployments.filter (fun d => d.id != deployment.id),
          versions := s.db.versions.filter (fun v => v.deploymentId != deployment.id) } }
      else s
    if delete_deployment then
      (.ok (), delete_hosted_deployment s deployment)
    else
      (.ok (), delete_hosted_version s deployment version))

/-- `Deployment.delete` — the DeleteDeployment transition.  Inside
`transaction.atomic()`: resolve the deployment, delete its row (cascading to
all its version rows), then delete the whole hosting directory. -/
def deployment_delete (st : ServerState) (authed : Bool)
    (lookupFieldParam : Option String) (deployment_id : String) :
    Except Exc Unit × ServerState :=
  if !authed then (.error .notAuthenticated, st) else
  atomic st (fun s =>
    match get_query_dict lookupFieldParam deployment_id with
    | .error e => (.error e, s)
    | .ok query_dict =>
    match get_deployment query_dict s.db.deployments with
    | .error e => (.error e, s)
    | .ok deployment =>
    let s := { s with db := { s.db with
      deployments := s.db.deployments.filter (fun d => d.id != deployment.id),
      versions := s.db.versions.filter (fun v => v.deploymentId != deployment.id) } }
    (.ok (), delete_hosted_deployment s deployment))

/-- How many versions of the given deployment are marked active. -/
def activeCount (db : DB) (deploymentId : Nat) : Nat :=
  (db.versions.filter (fun v => v.deploymentId == deploymentId && v.active)).length

/-- The single-active-version invariant: every existing deployment has exactly
one version with `active = true`. -/
def Invariant (db : DB) : Prop :=
  ∀ d ∈ db.deployments, activeCount db d.id = 1

instance (db : DB) : Decidable (Invariant db) := by
  unfold Invariant; infer_instance

/-- Structural well-formedness of the database: primary keys are distinct and
below the auto-increment counters, and foreign keys never alias an id the
counter has not yet produced. -/
def WF (db : DB) : Prop :=
  (db.deployments.map (fun d => d.id)).Nodup ∧
  (db.versions.map (fun v => v.id)).Nodup ∧
  (∀ d ∈ db.deployments, d.id < db.nextDeploymentId) ∧
  (∀ v ∈ db.versions, v.id < db.nextVersionId) ∧
  (∀ v ∈ db.versions, v.deploymentId < db.nextDeploymentId)

instance (db : DB) : Decidable (WF db) := by
  unfold WF; infer_instance

/-- The empty server state (fresh database, empty hosting directory). -/
def emptyState : ServerState := ⟨⟨[], [], 0, 0⟩, ⟨[], [], []⟩⟩

/-! ## Example run used by witnesses and counterexamples

The §8 scenario of the spec: create deployment `("blog", "blog-sub", "v1")`,
upload `"v2"`, then delete versions. -/

/-- State after `InitialUpload("blog", "blog-sub", "v1")` on the empty state. -/
def exSt1 : ServerState :=
  (deployments_post emptyState true "blog" "blog-sub" "v1" true).2

/-- State after additionally uploading version `"v2"`. -/
def exSt2 : ServerState :=
  (deployment_version_post exSt1 true (some "subdomain") "blog-sub" "v2" true true).2

/-- State after additionally deleting version `"v2"` (the active one) while
`"v1"` remains. -/
def exSt3 : ServerState :=
  (deployment_version_delete exSt2 true (some "subdomain") "blog-sub" "v2").2

/-! ## Inversion helpers for the query layer -/

theorem objects_get_eq_ok {α : Type} {p : α → Bool} {xs : List α} {x : α}
    (h : objects_get p xs = .ok x) : xs.filter p = [x] := by
  unfold objects_get at h
  cases hf : xs.filter p with
  | nil => rw [hf] at h; simp at h
  | cons a t =>
    cases t with
    | nil => rw [hf] at h; simp only [Except.ok.injEq] at h; rw [h]
    | cons b t' => rw [hf] at h; simp at h

theorem get_or_none_eq_ok {α : Type} {p : α → Bool} {xs : List α} {x : α}
    (h : get_or_none p xs = .ok x) : xs.filter p = [x] := by
  unfold get_or_none at h
  cases hg : objects_get p xs with
  | ok y =>
    rw [hg] at h
    simp only [Except.ok.injEq] at h
    subst h
    exact objects_get_eq_ok hg
  | error e => rw [hg] at h; cases e <;> simp at h

theorem get_or_none_mem {α : Type} {p : α → Bool} {xs : List α} {x : α}
    (h : get_or_none p xs = .ok x) : x ∈ xs ∧ p x = true := by
  have hf := get_or_none_eq_ok h
  have : x ∈ xs.filter p := by rw [hf]; exact List.mem_singleton.mpr rfl
  exact List.mem_filter.mp this

theorem get_deployment_eq_ok {q : String × String} {xs : List StaticDeployment}
    {x : StaticDeployment} (h : get_deployment q xs = .ok x) :
    get_or_none (lookupMatches q) xs = .ok x := by
  unfold get_deployment at h
  cases hg : (q.1 == "id" && (py_int? q.2).isNone) with
  | true => rw [hg] at h; simp at h
  | false =>
    rw [hg] at h
    simp only [Bool.false_eq_true, if_false] at h
    exact h

theorem get_deployment_mem {q : String × String} {xs : List StaticDeployment}
    {x : StaticDeployment} (h : get_deployment q xs = .ok x) :
    x ∈ xs ∧ lookupMatches q x = true :=
  get_or_none_mem (get_deployment_eq_ok h)

/-! ## Claim C4 -/

/-- C4: for every deployment and every version label that already exists for
that deployment, NewVersionUpload with that label fails with the uniqueness
`ConflictError` and leaves the entire prior state unchanged (the previously
active version is still active, no new version row is created, and the
`latest` pointer is not moved — the returned state is exactly the input
state). -/
theorem new_version_duplicate_label_conflict
    (st : ServerState) (lf : Option String) (qs version : String)
    (eok sok : Bool) (q : String × String) (d : StaticDeployment)
    (hq : get_query_dict lf qs = .ok q)
    (hd : get_deployment q st.db.deployments = .ok d)
    (hdup : st.db.versions.filter
      (fun v => v.deploymentId == d.id && v.version == version) ≠ []) :
    deployment_version_post st true lf qs version eok sok =
      (.error (.badInput "The new version name must be unique."), st) ∧
    isConflictError (.badInput "The new version name must be unique.") = true := by
  constructor
  · unfold deployment_version_post
    simp only [Bool.not_true, Bool.false_eq_true, if_false, hq, hd, hdup, ite_true,
      if_pos, ne_eq, not_false_eq_true]
  · rfl

/-- Witness for C4 on the concrete §8 state: re-uploading label `"v1"` to the
`blog` deployment is rejected and the state is untouched. -/
theorem new_version_duplicate_label_conflict_witness :
    deployment_version_post exSt1 true (some "subdomain") "blog-sub" "v1" true true =
      (.error (.badInput "The new version name must be unique."), exSt1) ∧
    isConflictError (.badInput "The new version name must be unique.") = true :=
  new_version_duplicate_label_conflict exSt1 (some "subdomain") "blog-sub" "v1"
    true true ("subdomain", "blog-sub") ⟨0, "blog", "blog-sub"⟩ rfl rfl (by decide)

/-! ## Claim C5 -/

/-- C5: once a deployment with a given name (or subdomain) exists, a second
create with the same name, or the same subdomain, fails with the uniqueness
`ConflictError` (the `IntegrityError` from the unique index, rewritten by the
`Duplicate entry` check) and creates no new deployment — the returned state is
exactly the input state. -/
theorem create_duplicate_conflict
    (st : ServerState) (name subdomain version : String) (eok : Bool)
    (hn : validate_deployment_name name = .ok ())
    (hs : validate_subdomain subdomain = .ok ())
    (hdup : st.db.deployments.any
      (fun d => d.name == name || d.subdomain == subdomain) = true) :
    deployments_post st true name subdomain version eok =
      (.error (.badInput "`name` and `subdomain` must be unique!"), st) ∧
    isConflictError (.badInput "`name` and `subdomain` must be unique!") = true := by
  constructor
  · unfold deployments_post atomic save_deployment
    simp only [Bool.not_true, Bool.false_eq_true, if_false, hn, hs, hdup, if_true,
      show py_in "Duplicate entry" "Duplicate entry for unique column" = true from rfl]
  · rfl

/-- Witness for C5: after creating `("blog", "blog-sub")`, creating
`("blog", "other")` (same name) is rejected and the state is untouched. -/
theorem create_duplicate_conflict_witness :
    deployments_post exSt1 true "blog" "other" "v1" true =
      (.error (.badInput "`name` and `subdomain` must be unique!"), exSt1) ∧
    isConflictError (.badInput "`name` and `subdomain` must be unique!") = true :=
  create_duplicate_conflict exSt1 "blog" "other" "v1" true rfl rfl (by decide)

/-! ## Claim C3 -/

/-- C3: in InitialUpload, if archive extraction fails, the whole transaction
is rolled back: the database of the resulting state is exactly the input
database (no Deployment row, no Version row), only the failed extraction call
is recorded, no directory is created, and the failure surfaces to the caller
(the `IOError` escapes to the generic handler). -/
theorem initial_upload_extraction_failure
    (st : ServerState) (name subdomain version : String)
    (hn : validate_deployment_name name = .ok ())
    (hs : validate_subdomain subdomain = .ok ())
    (hfresh : st.db.deployments.any
      (fun d => d.name == name || d.subdomain == subdomain) = false) :
    deployments_post st true name subdomain version false =
      (.error .ioError,
        { st with fs := { st.fs with
            calls := st.fs.calls ++ [.extract subdomain version true] } }) ∧
    with_caught_exceptions .ioError =
      .serverError "An unhandled error occured while processing the request" := by
  constructor
  · unfold deployments_post atomic save_deployment handle_uploaded_static_archive
    simp only [Bool.not_true, Bool.false_eq_true, if_false, hn, hs, hfresh,
      Bool.false_eq_true, if_false]
  · rfl

/-- Witness for C3: a failing extraction on the very first upload leaves the
database empty. -/
theorem initial_upload_extraction_failure_witness :
    deployments_post emptyState true "blog" "blog-sub" "v1" false =
      (.error .ioError,
        { emptyState with fs := { emptyState.fs with
            calls := emptyState.fs.calls ++ [.extract "blog-sub" "v1" true] } }) ∧
    with_caught_exceptions .ioError =
      .serverError "An unhandled error occured while processing the request" :=
  initial_upload_extraction_failure emptyState "blog" "blog-sub" "v1" rfl rfl rfl

/-! ## Claim C8 -/

/-- Counterexample to C8 as stated: with the recognized field `id` and the
non-numeric value `"blog"` — which matches no deployment — the lookup does
NOT fail with `NotFound`: the ORM's `int()` coercion raises `ValueError`,
which escapes `get_or_none` (it catches only `DoesNotExist`) and is reported
as the generic server error. -/
theorem nonnumeric_id_lookup_server_error :
    exSt1.db.deployments.filter (lookupMatches ("id", "blog")) = [] ∧
    deployment_get exSt1 (some "id") "blog" = .error .valueError ∧
    deployment_get exSt1 (some "id") "blog" ≠ .error .notFound ∧
    with_caught_exceptions .valueError =
      .serverError "An unhandled error occured while processing the request" := by
  refine ⟨by decide, rfl, ?_, rfl⟩
  rw [show deployment_get exSt1 (some "id") "blog" = .error .valueError from rfl]
  simp

/-- C8 (amended): a deployment lookup accepts exactly the fields `id`,
`subdomain`, `name`: any other `lookupField` fails with the validation
`BadInputException` (mapped to a 400, not a 404); a recognized field whose
value matches no deployment fails with `NotFound` (mapped to a 404) — except
that an `id` lookup whose value does not coerce to an integer raises an
uncaught `ValueError`, reported as the generic server error. -/
theorem lookup_field_error_contract :
    (∀ (st : ServerState) (lf qs : String),
      (lf == "id" || lf == "subdomain" || lf == "name") = false →
      deployment_get st (some lf) qs =
        .error (.badInput "The supplied `lookupField` was invalid") ∧
      with_caught_exceptions (.badInput "The supplied `lookupField` was invalid") =
        .badRequest "The supplied `lookupField` was invalid") ∧
    (∀ (st : ServerState) (lf : Option String) (qs : String) (q : String × String),
      get_query_dict lf qs = .ok q →
      (q.1 == "id" && (py_int? q.2).isNone) = false →
      st.db.deployments.filter (lookupMatches q) = [] →
      deployment_get st lf qs = .error .notFound ∧
      with_caught_exceptions .notFound = .notFoundResp) ∧
    (∀ (st : ServerState) (qs : String),
      py_int? qs = none →
      deployment_get st (some "id") qs = .error .valueError ∧
      with_caught_exceptions .valueError =
        .serverError "An unhandled error occured while processing the request") := by
  refine ⟨?_, ?_, ?_⟩
  · intro st lf qs h
    refine ⟨?_, rfl⟩
    unfold deployment_get get_query_dict
    simp [h]
  · intro st lf qs q hq hguard hnone
    refine ⟨?_, rfl⟩
    unfold deployment_get get_deployment get_or_none objects_get
    simp [hq, hguard, hnone]
  · intro st qs hz
    refine ⟨?_, rfl⟩
    unfold deployment_get get_deployment
    rw [show get_query_dict (some "id") qs = .ok ("id", qs) from rfl]
    simp [hz]

/-- Witness for C8 (amended): `lookupField=bogus` is a validation error;
looking up a name that does not exist is a not-found error; an `id` lookup
with the non-numeric value `"abc"` is a server error. -/
theorem lookup_field_error_contract_witness :
    (deployment_get exSt1 (some "bogus") "blog" =
        .error (.badInput "The supplied `lookupField` was invalid") ∧
      with_caught_exceptions (.badInput "The supplied `lookupField` was invalid") =
        .badRequest "The supplied `lookupField` was invalid") ∧
    (deployment_get exSt1 (some "name") "nope" = .error .notFound ∧
      with_caught_exceptions .notFound = .notFoundResp) ∧
    (deployment_get exSt1 (some "id") "abc" = .error .valueError ∧
      with_caught_exceptions .valueError =
        .serverError "An unhandled error occured while processing the request") :=
  ⟨lookup_field_error_contract.1 exSt1 "bogus" "blog" (by decide),
   lookup_field_error_contract.2.1 exSt1 (some "name") "nope" ("name", "nope")
     rfl rfl (by decide),
   lookup_field_error_contract.2.2 exSt1 "abc" rfl⟩

/-! ## Claim C9 -/

/-- C9: DeleteVersion with a version label that does not exist for the
deployment does not raise `NotFound`: the row-deletion filter matches
nothing (the database is exactly the input database), the operation reports
success, and — when other versions remain — it still issues the filesystem
deletion for the nonexistent version's subpath. -/
theorem delete_nonexistent_version
    (st : ServerState) (lf : Option String) (qs label : String)
    (q : String × String) (d : StaticDeployment)
    (hq : get_query_dict lf qs = .ok q)
    (hd : get_deployment q st.db.deployments = .ok d)
    (hnolabel : st.db.versions.filter
      (fun v => v.deploymentId == d.id && v.version == label) = [])
    (hhas : st.db.versions.filter (fun v => v.deploymentId == d.id) ≠ []) :
    deployment_version_delete st true lf qs label =
      (.ok (), { st with fs := { st.fs with
        dirs := st.fs.dirs.filter (fun p => !(p.1 == d.subdomain && p.2 == label)),
        calls := st.fs.calls ++ [.deleteVersionDir d.subdomain label] } }) := by
  have hrem : st.db.versions.filter
      (fun v => !(v.deploymentId == d.id && v.version == label)) = st.db.versions := by
    apply List.filter_eq_self.mpr
    intro v hv
    have hnp := List.filter_eq_nil_iff.mp hnolabel v hv
    simp only [Bool.not_eq_true] at hnp
    simp [hnp]
  have hne : ((st.db.versions.filter
      (fun v => v.deploymentId == d.id)).isEmpty) = false :=
    List.isEmpty_eq_false.mpr hhas
  unfold deployment_version_delete atomic versionsOf delete_hosted_version
  simp only [Bool.not_true, Bool.false_eq_true, if_false, hq, hd, hrem, hne]

/-- Witness for C9: deleting label `"v9"` from the two-version `blog`
deployment succeeds and still issues the subpath deletion. -/
theorem delete_nonexistent_version_witness :
    deployment_version_delete exSt2 true (some "name") "blog" "v9" =
      (.ok (), { exSt2 with fs := { exSt2.fs with
        dirs := exSt2.fs.dirs.filter (fun p => !(p.1 == "blog-sub" && p.2 == "v9")),
        calls := exSt2.fs.calls ++ [.deleteVersionDir "blog-sub" "v9"] } }) :=
  delete_nonexistent_version exSt2 (some "name") "blog" "v9" ("name", "blog")
    ⟨0, "blog", "blog-sub"⟩ rfl rfl (by decide) (by decide)

/-! ## Claim C2 -/

/-- Counterexample to C2 as stated: on the concrete `blog` deployment, when
the symlink update of NewVersionUpload fails, the database changes do NOT
remain committed — the whole database is rolled back to its prior state, in
which the only version row is `v1`, still active, and no `v2` row exists.
(The symlink update sits inside `transaction.atomic()`, so it runs before
the commit, and its failure aborts the database half too.) -/
theorem symlink_failure_not_committed :
    (deployment_version_post exSt1 true (some "subdomain") "blog-sub" "v2" true false).1 =
      .error .ioError ∧
    (deployment_version_post exSt1 true (some "subdomain") "blog-sub" "v2" true false).2.db =
      exSt1.db ∧
    exSt1.db.versions = [⟨0, "v1", 0, true⟩] :=
  ⟨rfl, rfl, rfl⟩

/-- C2 (amended): the symlink update is the textually last step of
NewVersionUpload but executes inside the database transaction, before the
commit; if it fails (after a successful extraction), the operation surfaces
a failure (the `IOError` escapes to the generic handler) and the database
changes are rolled back — the resulting database is exactly the input
database, so the old version is still active and no new version row exists —
while the extracted archive directory remains on disk and the `latest`
pointer still references the old path. -/
theorem new_version_symlink_failure_rolls_back
    (st : ServerState) (lf : Option String) (qs label : String)
    (q : String × String) (d : StaticDeployment) (old : DeploymentVersion)
    (hq : get_query_dict lf qs = .ok q)
    (hd : get_deployment q st.db.deployments = .ok d)
    (hfresh : st.db.versions.filter
      (fun v => v.deploymentId == d.id && v.version == label) = [])
    (hact : st.db.versions.filter
      (fun v => v.deploymentId == d.id && v.active) = [old]) :
    deployment_version_post st true lf qs label true false =
      (.error .ioError,
        { st with fs := { st.fs with
            dirs := st.fs.dirs ++ [(d.subdomain, label)],
            calls := st.fs.calls ++
              [.extract d.subdomain label false, .updateSymlink d.name label] } }) ∧
    with_caught_exceptions .ioError =
      .serverError "An unhandled error occured while processing the request" := by
  constructor
  · unfold deployment_version_post atomic objects_get pyTruthy
      handle_uploaded_static_archive update_symlink save_version
    simp only [Bool.not_true, Bool.false_eq_true, if_false, hq, hd, hfresh, hact,
      ne_eq, not_true_eq_false, if_true, ite_true, ite_false, List.append_assoc,
      List.singleton_append, List.cons_append, List.nil_append]
  · rfl

/-- Witness for C2 (amended): the concrete failing-symlink upload of `"v2"`
onto the `blog` deployment. -/
theorem new_version_symlink_failure_rolls_back_witness :
    deployment_version_post exSt1 true (some "subdomain") "blog-sub" "v2" true false =
      (.error .ioError,
        { exSt1 with fs := { exSt1.fs with
            dirs := exSt1.fs.dirs ++ [("blog-sub", "v2")],
            calls := exSt1.fs.calls ++
              [.extract "blog-sub" "v2" false, .updateSymlink "blog" "v2"] } }) ∧
    with_caught_exceptions .ioError =
      .serverError "An unhandled error occured while processing the request" :=
  new_version_symlink_failure_rolls_back exSt1 (some "subdomain") "blog-sub" "v2"
    ("subdomain", "blog-sub") ⟨0, "blog", "blog-sub"⟩ ⟨0, "v1", 0, true⟩
    rfl rfl (by decide) (by decide)

/-! ## Claim C10 -/

/-- C10: for a deployment with zero active versions, reading it raises
`StopIteration` (from `next(...)` over the active-version generator) and
uploading a new version raises `DoesNotExist` (from the active-version
`objects.get`), both reported as the generic server error rather than one of
the specified error kinds; and the `if old_version:` guard can never take
its `else` branch because a Django model instance is always truthy. -/
theorem zero_active_deployment_errors
    (st : ServerState) (lf : Option String) (qs label : String)
    (q : String × String) (d : StaticDeployment) (eok sok : Bool)
    (hq : get_query_dict lf qs = .ok q)
    (hd : get_deployment q st.db.deployments = .ok d)
    (hzero : st.db.versions.filter
      (fun v => v.deploymentId == d.id && v.active) = [])
    (hfresh : st.db.versions.filter
      (fun v => v.deploymentId == d.id && v.version == label) = []) :
    deployment_get st lf qs = .error .stopIteration ∧
    deployment_version_post st true lf qs label eok sok = (.error .doesNotExist, st) ∧
    with_caught_exceptions .stopIteration =
      .serverError "An unhandled error occured while processing the request" ∧
    with_caught_exceptions .doesNotExist =
      .serverError "An unhandled error occured while processing the request" ∧
    ∀ v : DeploymentVersion, pyTruthy v = true := by
  have hfind : (versionsOf st.db d.id).find? (fun v => v.active) = none := by
    apply List.find?_eq_none.mpr
    intro v hv
    have hm := List.mem_filter.mp hv
    have hz := List.filter_eq_nil_iff.mp hzero v hm.1
    simp only [hm.2, Bool.true_and] at hz
    exact hz
  refine ⟨?_, ?_, rfl, rfl, fun v => rfl⟩
  · unfold deployment_get
    simp only [hq, hd, hfind]
  · unfold deployment_version_post atomic objects_get
    simp only [Bool.not_true, Bool.false_eq_true, if_false, hq, hd, hfresh, hzero,
      ne_eq, not_true_eq_false, if_true, ite_true, ite_false]

/-- Witness for C10: deleting the active `"v2"` while `"v1"` remains leaves
the `blog` deployment with zero active versions; reading it then raises
`StopIteration` and uploading `"v3"` raises `DoesNotExist`. -/
theorem zero_active_deployment_errors_witness :
    deployment_get exSt3 (some "name") "blog" = .error .stopIteration ∧
    deployment_version_post exSt3 true (some "name") "blog" "v3" true true =
      (.error .doesNotExist, exSt3) ∧
    with_caught_exceptions .stopIteration =
      .serverError "An unhandled error occured while processing the request" ∧
    with_caught_exceptions .doesNotExist =
      .serverError "An unhandled error occured while processing the request" ∧
    ∀ v : DeploymentVersion, pyTruthy v = true :=
  zero_active_deployment_errors exSt3 (some "name") "blog" "v3" ("name", "blog")
    ⟨0, "blog", "blog-sub"⟩ true true rfl rfl (by decide) (by decide)

theorem get_or_none_of_filter {α : Type} {p : α → Bool} {xs : List α} {x : α}
    (h : xs.filter p = [x]) : get_or_none p xs = .ok x := by
  unfold get_or_none objects_get
  rw [h]

theorem get_deployment_of_filter {q : String × String}
    {xs : List StaticDeployment} {x : StaticDeployment}
    (hguard : (q.1 == "id" && (py_int? q.2).isNone) = false)
    (h : xs.filter (lookupMatches q) = [x]) :
    get_deployment q xs = .ok x := by
  unfold get_deployment
  rw [hguard]
  simp only [Bool.false_eq_true, if_false]
  exact get_or_none_of_filter h

/-! ## Claim C6 -/

/-- C6: after a successful InitialUpload of `(name, subdomain, v1)`, looking
the deployment up by name, by subdomain, and by id each returns the same
record, whose version list is exactly `[v1]` and whose active version is
`v1`. -/
theorem initial_upload_lookup_roundtrip
    (st : ServerState) (name subdomain v1 qid : String)
    (hn : validate_deployment_name name = .ok ())
    (hs : validate_subdomain subdomain = .ok ())
    (hfresh : st.db.deployments.any
      (fun d => d.name == name || d.subdomain == subdomain) = false)
    (hwf : WF st.db)
    (hqid : py_int? qid = some (st.db.nextDeploymentId : Int)) :
    (deployments_post st true name subdomain v1 true).1 =
      .ok ⟨name, subdomain, v1, subdomain⟩ ∧
    deployment_get (deployments_post st true name subdomain v1 true).2
        (some "name") name =
      .ok ⟨st.db.nextDeploymentId, name, subdomain, [v1], v1⟩ ∧
    deployment_get (deployments_post st true name subdomain v1 true).2
        (some "subdomain") subdomain =
      .ok ⟨st.db.nextDeploymentId, name, subdomain, [v1], v1⟩ ∧
    deployment_get (deployments_post st true name subdomain v1 true).2
        (some "id") qid =
      .ok ⟨st.db.nextDeploymentId, name, subdomain, [v1], v1⟩ := by
  have hfresh' := List.any_eq_false.mp hfresh
  have hpost : deployments_post st true name subdomain v1 true =
      (.ok ⟨name, subdomain, v1, subdomain⟩,
       ⟨⟨st.db.deployments ++ [(⟨st.db.nextDeploymentId, name, subdomain⟩ : StaticDeployment)],
         st.db.versions ++
           [(⟨st.db.nextVersionId, v1, st.db.nextDeploymentId, true⟩ : DeploymentVersion)],
         st.db.nextDeploymentId + 1, st.db.nextVersionId + 1⟩,
        ⟨st.fs.dirs ++ [(subdomain, v1)], st.fs.links,
         st.fs.calls ++ [.extract subdomain v1 true]⟩⟩) := by
    unfold deployments_post atomic save_deployment save_version
      handle_uploaded_static_archive get_url
    simp only [Bool.not_true, Bool.false_eq_true, if_false, hn, hs, hfresh,
      if_true, ite_true, ite_false]
  have hvers : (st.db.versions ++
        [(⟨st.db.nextVersionId, v1, st.db.nextDeploymentId, true⟩ : DeploymentVersion)]).filter
      (fun v => v.deploymentId == st.db.nextDeploymentId) =
      [(⟨st.db.nextVersionId, v1, st.db.nextDeploymentId, true⟩ : DeploymentVersion)] := by
    rw [List.filter_append]
    have h1 : st.db.versions.filter
        (fun v => v.deploymentId == st.db.nextDeploymentId) = [] := by
      apply List.filter_eq_nil_iff.mpr
      intro v hv
      have := hwf.2.2.2.2 v hv
      simp only [Bool.not_eq_true, beq_eq_false_iff_ne, ne_eq]
      omega
    rw [h1]
    simp
  have hdeps : (deployments_post st true name subdomain v1 true).2.db.deployments =
      st.db.deployments ++
        [(⟨st.db.nextDeploymentId, name, subdomain⟩ : StaticDeployment)] := by
    rw [hpost]
  have hverscomp : (deployments_post st true name subdomain v1 true).2.db.versions =
      st.db.versions ++
        [(⟨st.db.nextVersionId, v1, st.db.nextDeploymentId, true⟩ : DeploymentVersion)] := by
    rw [hpost]
  refine ⟨by rw [hpost], ?_, ?_, ?_⟩
  · unfold deployment_get versionsOf
    rw [show get_query_dict (some "name") name = .ok ("name", name) from rfl]
    have hfilter : (st.db.deployments ++
          [(⟨st.db.nextDeploymentId, name, subdomain⟩ : StaticDeployment)]).filter
        (lookupMatches ("name", name)) =
        [(⟨st.db.nextDeploymentId, name, subdomain⟩ : StaticDeployment)] := by
      rw [List.filter_append]
      have h1 : st.db.deployments.filter (lookupMatches ("name", name)) = [] := by
        apply List.filter_eq_nil_iff.mpr
        intro d' hd'
        have hne := hfresh' d' hd'
        simp only [Bool.or_eq_true, not_or] at hne
        unfold lookupMatches
        simp only [show (("name" : String) == "id") = false from rfl,
          show (("name" : String) == "subdomain") = false from rfl]
        simp only [Bool.false_eq_true, if_false]
        exact hne.1
      rw [h1]
      simp [lookupMatches]
    have hlook : get_deployment ("name", name)
        (st.db.deployments ++ [(⟨st.db.nextDeploymentId, name, subdomain⟩ : StaticDeployment)]) =
        .ok (⟨st.db.nextDeploymentId, name, subdomain⟩ : StaticDeployment) :=
      get_deployment_of_filter rfl hfilter
    simp only [hdeps, hlook, hverscomp, hvers,
      List.find?_cons, List.map_cons, List.map_nil]
  · unfold deployment_get versionsOf
    rw [show get_query_dict (some "subdomain") subdomain =
      .ok ("subdomain", subdomain) from rfl]
    have hfilter : (st.db.deployments ++
          [(⟨st.db.nextDeploymentId, name, subdomain⟩ : StaticDeployment)]).filter
        (lookupMatches ("subdomain", subdomain)) =
        [(⟨st.db.nextDeploymentId, name, subdomain⟩ : StaticDeployment)] := by
      rw [List.filter_append]
      have h1 : st.db.deployments.filter
          (lookupMatches ("subdomain", subdomain)) = [] := by
        apply List.filter_eq_nil_iff.mpr
        intro d' hd'
        have hne := hfresh' d' hd'
        simp only [Bool.or_eq_true, not_or] at hne
        unfold lookupMatches
        simp only [show (("subdomain" : String) == "id") = false from rfl,
          show (("subdomain" : String) == "subdomain") = true from rfl]
        simp only [Bool.false_eq_true, if_false, if_true]
        exact hne.2
      rw [h1]
      simp [lookupMatches]
    have hlook : get_deployment ("subdomain", subdomain)
        (st.db.deployments ++ [(⟨st.db.nextDeploymentId, name, subdomain⟩ : StaticDeployment)]) =
        .ok (⟨st.db.nextDeploymentId, name, subdomain⟩ : StaticDeployment) :=
      get_deployment_of_filter rfl hfilter
    simp only [hdeps, hlook, hverscomp, hvers,
      List.find?_cons, List.map_cons, List.map_nil]
  · unfold deployment_get versionsOf
    rw [show get_query_dict (some "id") qid = .ok ("id", qid) from rfl]
    have hfilter : (st.db.deployments ++
          [(⟨st.db.nextDeploymentId, name, subdomain⟩ : StaticDeployment)]).filter
        (lookupMatches ("id", qid)) =
        [(⟨st.db.nextDeploymentId, name, subdomain⟩ : StaticDeployment)] := by
      rw [List.filter_append]
      have h1 : st.db.deployments.filter (lookupMatches ("id", qid)) = [] := by
        apply List.filter_eq_nil_iff.mpr
        intro d' hd'
        have hlt := hwf.2.2.1 d' hd'
        unfold lookupMatches
        simp only [show (("id" : String) == "id") = true from rfl, if_true]
        rw [hqid]
        simp only [Bool.not_eq_true, beq_eq_false_iff_ne, ne_eq, Option.some.injEq]
        omega
      rw [h1]
      simp [lookupMatches, hqid]
    have hlook : get_deployment ("id", qid)
        (st.db.deployments ++ [(⟨st.db.nextDeploymentId, name, subdomain⟩ : StaticDeployment)]) =
        .ok (⟨st.db.nextDeploymentId, name, subdomain⟩ : StaticDeployment) := by
      apply get_deployment_of_filter ?_ hfilter
      show (("id" : String) == "id" && (py_int? qid).isNone) = false
      rw [hqid]
      rfl
    simp only [hdeps, hlook, hverscomp, hvers,
      List.find?_cons, List.map_cons, List.map_nil]
theorem initial_upload_lookup_roundtrip_witness :
    (deployments_post emptyState true "blog" "blog-sub" "v1" true).1 =
      .ok ⟨"blog", "blog-sub", "v1", "blog-sub"⟩ ∧
    deployment_get (deployments_post emptyState true "blog" "blog-sub" "v1" true).2
        (some "name") "blog" =
      .ok ⟨0, "blog", "blog-sub", ["v1"], "v1"⟩ ∧
    deployment_get (deployments_post emptyState true "blog" "blog-sub" "v1" true).2
        (some "subdomain") "blog-sub" =
      .ok ⟨0, "blog", "blog-sub", ["v1"], "v1"⟩ ∧
    deployment_get (deployments_post emptyState true "blog" "blog-sub" "v1" true).2
        (some "id") "0" =
      .ok ⟨0, "blog", "blog-sub", ["v1"], "v1"⟩ :=
  initial_upload_lookup_roundtrip emptyState "blog" "blog-sub" "v1" "0"
    rfl rfl rfl (by decide) rfl

/-! ## Claim C7 -/

/-- C7: DeleteVersion on the sole remaining version of a deployment deletes
the deployment record itself (its version rows are all gone) and its entire
hosting directory (every subpath under its subdomain, and its `latest`
pointer); DeleteVersion when other versions remain deletes only the named
version's row and that version's filesystem subpath, and the deployment
still exists afterwards. -/
theorem delete_version_sole_vs_remaining :
    (∀ (st : ServerState) (lf : Option String) (qs label : String)
       (q : String × String) (d : StaticDeployment) (v0 : DeploymentVersion),
      get_query_dict lf qs = .ok q →
      get_deployment q st.db.deployments = .ok d →
      st.db.versions.filter (fun v => v.deploymentId == d.id) = [v0] →
      v0.version = label →
      deployment_version_delete st true lf qs label =
        (.ok (), ⟨⟨st.db.deployments.filter (fun x => x.id != d.id),
                   st.db.versions.filter (fun v => v.deploymentId != d.id),
                   st.db.nextDeploymentId, st.db.nextVersionId⟩,
                  ⟨st.fs.dirs.filter (fun p => p.1 != d.subdomain),
                   st.fs.links.filter (fun l => l.1 != d.name),
                   st.fs.calls ++ [.deleteDeployment d.subdomain]⟩⟩)) ∧
    (∀ (st : ServerState) (lf : Option String) (qs label : String)
       (q : String × String) (d : StaticDeployment) (w : DeploymentVersion),
      get_query_dict lf qs = .ok q →
      get_deployment q st.db.deployments = .ok d →
      w ∈ st.db.versions → w.deploymentId = d.id → w.version ≠ label →
      deployment_version_delete st true lf qs label =
        (.ok (), ⟨⟨st.db.deployments,
                   st.db.versions.filter
                     (fun v => !(v.deploymentId == d.id && v.version == label)),
                   st.db.nextDeploymentId, st.db.nextVersionId⟩,
                  ⟨st.fs.dirs.filter (fun p => !(p.1 == d.subdomain && p.2 == label)),
                   st.fs.links,
                   st.fs.calls ++ [.deleteVersionDir d.subdomain label]⟩⟩) ∧
      d ∈ st.db.deployments) := by
  constructor
  · intro st lf qs label q d v0 hq hd hsole hlabel
    have hrem : st.db.versions.filter
        (fun v => !(v.deploymentId == d.id && v.version == label)) =
        st.db.versions.filter (fun v => v.deploymentId != d.id) := by
      apply List.filter_congr
      intro v hv
      cases hdep : v.deploymentId == d.id with
      | false => simp [bne, hdep]
      | true =>
        have hvmem : v ∈ st.db.versions.filter
            (fun x => x.deploymentId == d.id) :=
          List.mem_filter.mpr ⟨hv, hdep⟩
        rw [hsole] at hvmem
        have hv0 : v = v0 := List.mem_singleton.mp hvmem
        subst hv0
        simp [bne, hdep, hlabel]
    have hempty : ((st.db.versions.filter
        (fun v => v.deploymentId != d.id)).filter
        (fun v => v.deploymentId == d.id)).isEmpty = true := by
      apply List.isEmpty_iff.mpr
      apply List.filter_eq_nil_iff.mpr
      intro v hv
      have := (List.mem_filter.mp hv).2
      simp only [bne_iff_ne, ne_eq] at this
      simp [this]
    have hfinal : (st.db.versions.filter
        (fun v => v.deploymentId != d.id)).filter
        (fun v => v.deploymentId != d.id) =
        st.db.versions.filter (fun v => v.deploymentId != d.id) := by
      apply List.filter_eq_self.mpr
      intro v hv
      exact (List.mem_filter.mp hv).2
    unfold deployment_version_delete atomic versionsOf delete_hosted_deployment
    simp only [Bool.not_true, Bool.false_eq_true, if_false, hq, hd, hrem, hempty,
      hfinal, if_true, ite_true]
  · intro st lf qs label q d w hq hd hw hwdep hwlabel
    have hwrem : w ∈ st.db.versions.filter
        (fun v => !(v.deploymentId == d.id && v.version == label)) := by
      apply List.mem_filter.mpr
      refine ⟨hw, ?_⟩
      have : (w.version == label) = false := beq_eq_false_iff_ne.mpr hwlabel
      simp [this]
    have hne : ((st.db.versions.filter
        (fun v => !(v.deploymentId == d.id && v.version == label))).filter
        (fun v => v.deploymentId == d.id)).isEmpty = false := by
      apply List.isEmpty_eq_false.mpr
      apply List.ne_nil_of_mem (a := w)
      exact List.mem_filter.mpr ⟨hwrem, by simp [hwdep]⟩
    refine ⟨?_, (get_deployment_mem hd).1⟩
    unfold deployment_version_delete atomic versionsOf delete_hosted_version
    simp only [Bool.not_true, Bool.false_eq_true, if_false, hq, hd, hne, ite_false]

/-- Witness for C7: deleting the sole version `"v1"` of the fresh `blog`
deployment removes the deployment and its whole directory; deleting `"v1"`
while `"v2"` remains keeps the deployment. -/
theorem delete_version_sole_vs_remaining_witness :
    deployment_version_delete exSt1 true (some "subdomain") "blog-sub" "v1" =
      (.ok (), ⟨⟨exSt1.db.deployments.filter (fun x => x.id != 0),
                 exSt1.db.versions.filter (fun v => v.deploymentId != 0),
                 exSt1.db.nextDeploymentId, exSt1.db.nextVersionId⟩,
                ⟨exSt1.fs.dirs.filter (fun p => p.1 != "blog-sub"),
                 exSt1.fs.links.filter (fun l => l.1 != "blog"),
                 exSt1.fs.calls ++ [.deleteDeployment "blog-sub"]⟩⟩) ∧
    (deployment_version_delete exSt2 true (some "subdomain") "blog-sub" "v1" =
      (.ok (), ⟨⟨exSt2.db.deployments,
                 exSt2.db.versions.filter
                   (fun v => !(v.deploymentId == 0 && v.version == "v1")),
                 exSt2.db.nextDeploymentId, exSt2.db.nextVersionId⟩,
                ⟨exSt2.fs.dirs.filter (fun p => !(p.1 == "blog-sub" && p.2 == "v1")),
                 exSt2.fs.links,
                 exSt2.fs.calls ++ [.deleteVersionDir "blog-sub" "v1"]⟩⟩) ∧
      (⟨0, "blog", "blog-sub"⟩ : StaticDeployment) ∈ exSt2.db.deployments) :=
  ⟨delete_version_sole_vs_remaining.1 exSt1 (some "subdomain") "blog-sub" "v1"
      ("subdomain", "blog-sub") ⟨0, "blog", "blog-sub"⟩ ⟨0, "v1", 0, true⟩
      rfl rfl (by decide) rfl,
   delete_version_sole_vs_remaining.2 exSt2 (some "subdomain") "blog-sub" "v1"
      ("subdomain", "blog-sub") ⟨0, "blog", "blog-sub"⟩ ⟨1, "v2", 0, true⟩
      rfl rfl (by decide) rfl (by decide)⟩

/-! ## Claim C1: single-active-version invariant -/

theorem countP_filter_keep {α : Type} (p q : α → Bool) (l : List α)
    (h : ∀ v ∈ l, p v = true → q v = true) :
    (l.filter q).countP p = l.countP p := by
  rw [List.countP_filter]
  apply List.countP_congr
  intro v hv
  constructor
  · intro hpq
    exact ((Bool.and_eq_true _ _) ▸ hpq).1
  · intro hp
    rw [hp, h v hv hp]
    rfl

theorem activeCount_eq_countP (db : DB) (did : Nat) :
    activeCount db did =
      db.versions.countP (fun v => v.deploymentId == did && v.active) := by
  unfold activeCount
  rw [List.countP_eq_length_filter]

theorem invariant_deployments_post (st : ServerState) (authed : Bool)
    (name subdomain version : String) (eok : Bool)
    (hwf : WF st.db) (hinv : Invariant st.db) :
    Invariant (deployments_post st authed name subdomain version eok).2.db := by
  unfold deployments_post atomic save_deployment save_version
    handle_uploaded_static_archive
  cases authed with
  | false => exact hinv
  | true =>
    cases hn : validate_deployment_name name with
    | error e => simp only [hn]; exact hinv
    | ok u =>
      cases u
      simp only [hn]
      cases hs : validate_subdomain subdomain with
      | error e => simp only [hs]; exact hinv
      | ok u' =>
        cases u'
        simp only [hs]
        cases hdup : st.db.deployments.any
            (fun d => d.name == name || d.subdomain == subdomain) with
        | true => exact hinv
        | false =>
          cases eok with
          | false => exact hinv
          | true =>
            show Invariant (DB.mk
              (st.db.deployments ++
                [(⟨st.db.nextDeploymentId, name, subdomain⟩ : StaticDeployment)])
              (st.db.versions ++
                [(⟨st.db.nextVersionId, version, st.db.nextDeploymentId, true⟩ :
                  DeploymentVersion)])
              (st.db.nextDeploymentId + 1) (st.db.nextVersionId + 1))
            intro d' hd'
            unfold activeCount
            rcases List.mem_append.mp hd' with hmem | hnew
            · have hdlt : d'.id < st.db.nextDeploymentId := hwf.2.2.1 d' hmem
              rw [List.filter_append, List.length_append]
              have h0 : List.filter (fun v => v.deploymentId == d'.id && v.active)
                  [(⟨st.db.nextVersionId, version, st.db.nextDeploymentId, true⟩ :
                    DeploymentVersion)] = [] := by
                simp [beq_eq_false_iff_ne.mpr (ne_of_gt hdlt)]
              rw [h0]
              simpa using hinv d' hmem
            · rw [List.mem_singleton] at hnew
              subst hnew
              rw [List.filter_append, List.length_append]
              have h0 : st.db.versions.filter
                  (fun v => v.deploymentId == st.db.nextDeploymentId && v.active)
                  = [] := by
                apply List.filter_eq_nil_iff.mpr
                intro v hv
                have hlt := hwf.2.2.2.2 v hv
                simp [beq_eq_false_iff_ne.mpr
                  (by omega : v.deploymentId ≠ st.db.nextDeploymentId)]
              simp [h0]

theorem invariant_deployment_version_post (st : ServerState) (authed : Bool)
    (lf : Option String) (qs label : String) (eok sok : Bool)
    (hwf : WF st.db) (hinv : Invariant st.db) :
    Invariant (deployment_version_post st authed lf qs label eok sok).2.db := by
  unfold Invariant activeCount at hinv
  unfold deployment_version_post atomic save_version
    handle_uploaded_static_archive update_symlink
  cases authed with
  | false => exact hinv
  | true =>
    cases hq : get_query_dict lf qs with
    | error e => simp only [hq]; exact hinv
    | ok q =>
      simp only [hq]
      cases hd : get_deployment q st.db.deployments with
      | error e => simp only [hd]; exact hinv
      | ok d =>
        simp only [hd]
        by_cases hdup : st.db.versions.filter
            (fun v => v.deploymentId == d.id && v.version == label) ≠ []
        · rw [if_pos hdup]; exact hinv
        · rw [if_neg hdup]
          have hdmem := (get_deployment_mem hd).1
          have hone := hinv d hdmem
          rcases List.length_eq_one.mp hone with ⟨old, hold⟩
          have hog : objects_get (fun v => v.deploymentId == d.id && v.active)
              st.db.versions = .ok old := by
            unfold objects_get
            rw [hold]
          simp only [hog]
          have hold_mem : old ∈ st.db.versions ∧
              (old.deploymentId == d.id && old.active) = true := by
            have : old ∈ st.db.versions.filter
                (fun v => v.deploymentId == d.id && v.active) := by
              rw [hold]; exact List.mem_singleton.mpr rfl
            exact List.mem_filter.mp this
          have holddep : old.deploymentId = d.id :=
            beq_iff_eq.mp ((Bool.and_eq_true _ _ ▸ hold_mem.2).1)
          cases eok with
          | false => exact hinv
          | true =>
            cases sok with
            | false => exact hinv
            | true =>
              show Invariant (DB.mk st.db.deployments
                (st.db.versions.map
                    (fun v => if v.id == old.id then { v with active := false } else v)
                  ++ [(⟨st.db.nextVersionId, label, d.id, true⟩ : DeploymentVersion)])
                st.db.nextDeploymentId (st.db.nextVersionId + 1))
              intro d' hd'
              unfold activeCount
              rw [List.filter_append, List.length_append]
              by_cases hcase : d'.id = d.id
              · have hmap0 : (st.db.versions.map
                    (fun v => if v.id == old.id then { v with active := false } else v)).filter
                    (fun v => v.deploymentId == d'.id && v.active) = [] := by
                  apply List.filter_eq_nil_iff.mpr
                  intro x hx
                  rcases List.mem_map.mp hx with ⟨u, hu, hfu⟩
                  subst hfu
                  by_cases hid : u.id = old.id
                  · simp [hid]
                  · simp only [beq_eq_false_iff_ne.mpr hid, Bool.false_eq_true, if_false]
                    intro hpu
                    rcases Bool.and_eq_true _ _ ▸ hpu with ⟨hudep, huact⟩
                    have humem : u ∈ st.db.versions.filter
                        (fun v => v.deploymentId == d.id && v.active) := by
                      apply List.mem_filter.mpr
                      refine ⟨hu, ?_⟩
                      have : u.deploymentId = d.id := by
                        rw [beq_iff_eq.mp hudep, hcase]
                      simp [this, huact]
                    rw [hold] at humem
                    exact hid (congrArg DeploymentVersion.id
                      (List.mem_singleton.mp humem) ▸ rfl)
                rw [hmap0]
                simp [hcase]
              · have hsing0 : List.filter (fun v => v.deploymentId == d'.id && v.active)
                    [(⟨st.db.nextVersionId, label, d.id, true⟩ : DeploymentVersion)]
                    = [] := by
                  simp [beq_eq_false_iff_ne.mpr (fun h => hcase h.symm)]
                have hmaplen : ((st.db.versions.map
                    (fun v => if v.id == old.id then { v with active := false } else v)).filter
                    (fun v => v.deploymentId == d'.id && v.active)).length =
                    ((st.db.versions.filter
                      (fun v => v.deploymentId == d'.id && v.active))).length := by
                  rw [← List.countP_eq_length_filter, ← List.countP_eq_length_filter,
                    List.countP_map]
                  apply List.countP_congr
                  intro u hu
                  by_cases hid : u.id = old.id
                  · have hueq : u = old :=
                      List.inj_on_of_nodup_map hwf.2.1 hu hold_mem.1 hid
                    subst hueq
                    simp [Function.comp, hid, holddep,
                      beq_eq_false_iff_ne.mpr (fun h => hcase h.symm)]
                  · simp [Function.comp, beq_eq_false_iff_ne.mpr hid]
                rw [hsing0, hmaplen]
                simpa using hinv d' hd'

theorem invariant_deployment_delete (st : ServerState) (authed : Bool)
    (lf : Option String) (qs : String) (hinv : Invariant st.db) :
    Invariant (deployment_delete st authed lf qs).2.db := by
  unfold deployment_delete atomic delete_hosted_deployment
  cases authed with
  | false => exact hinv
  | true =>
    cases hq : get_query_dict lf qs with
    | error e => simp only [hq]; exact hinv
    | ok q =>
      simp only [hq]
      cases hd : get_deployment q st.db.deployments with
      | error e => simp only [hd]; exact hinv
      | ok d =>
        simp only [hd]
        show Invariant (DB.mk
          (st.db.deployments.filter (fun x => x.id != d.id))
          (st.db.versions.filter (fun v => v.deploymentId != d.id))
          st.db.nextDeploymentId st.db.nextVersionId)
        intro d' hd'
        have hmem := List.mem_filter.mp hd'
        have hne : d'.id ≠ d.id := bne_iff_ne.mp hmem.2
        show ((st.db.versions.filter (fun v => v.deploymentId != d.id)).filter
          (fun v => v.deploymentId == d'.id && v.active)).length = 1
        rw [← List.countP_eq_length_filter]
        rw [countP_filter_keep _ _ _ (fun v hv hp => by
          have hvdep : v.deploymentId = d'.id :=
            beq_iff_eq.mp ((Bool.and_eq_true _ _ ▸ hp).1)
          exact bne_iff_ne.mpr (hvdep ▸ hne))]
        rw [List.countP_eq_length_filter]
        exact hinv d' hmem.1

theorem delete_version_active_char (st : ServerState) (authed : Bool)
    (lf : Option String) (qs label : String) (hinv : Invariant st.db) :
    ∀ d' ∈ (deployment_version_delete st authed lf qs label).2.db.deployments,
      activeCount (deployment_version_delete st authed lf qs label).2.db d'.id = 1 ∨
      (activeCount (deployment_version_delete st authed lf qs label).2.db d'.id = 0 ∧
       ∃ act ∈ st.db.versions, act.deploymentId = d'.id ∧ act.active = true ∧
         act.version = label) := by
  cases authed with
  | false =>
    intro d' hd'
    exact Or.inl (hinv d' hd')
  | true =>
    cases hq : get_query_dict lf qs with
    | error e =>
      have hres : (deployment_version_delete st true lf qs label).2.db = st.db := by
        unfold deployment_version_delete atomic
        simp only [Bool.not_true, Bool.false_eq_true, if_false, hq]
      rw [hres]
      intro d' hd'
      exact Or.inl (hinv d' hd')
    | ok q =>
      cases hd : get_deployment q st.db.deployments with
      | error e =>
        have hres : (deployment_version_delete st true lf qs label).2.db = st.db := by
          unfold deployment_version_delete atomic
          simp only [Bool.not_true, Bool.false_eq_true, if_false, hq, hd]
        rw [hres]
        intro d' hd'
        exact Or.inl (hinv d' hd')
      | ok d =>
        cases hdel : ((st.db.versions.filter
            (fun v => !(v.deploymentId == d.id && v.version == label))).filter
            (fun v => v.deploymentId == d.id)).isEmpty with
        | true =>
          have hres : (deployment_version_delete st true lf qs label).2.db =
              DB.mk (st.db.deployments.filter (fun x => x.id != d.id))
                ((st.db.versions.filter
                  (fun v => !(v.deploymentId == d.id && v.version == label))).filter
                  (fun v => v.deploymentId != d.id))
                st.db.nextDeploymentId st.db.nextVersionId := by
            unfold deployment_version_delete atomic versionsOf delete_hosted_deployment
            simp only [Bool.not_true, Bool.false_eq_true, if_false, hq, hd, hdel,
              if_true, ite_true]
          rw [hres]
          intro d' hd'
          have hmem := List.mem_filter.mp hd'
          have hne : d'.id ≠ d.id := bne_iff_ne.mp hmem.2
          left
          show (((st.db.versions.filter
              (fun v => !(v.deploymentId == d.id && v.version == label))).filter
              (fun v => v.deploymentId != d.id)).filter
              (fun v => v.deploymentId == d'.id && v.active)).length = 1
          rw [← List.countP_eq_length_filter]
          rw [countP_filter_keep _ _ _ (fun v _ hp => by
            have hvdep : v.deploymentId = d'.id :=
              beq_iff_eq.mp ((Bool.and_eq_true _ _ ▸ hp).1)
            exact bne_iff_ne.mpr (hvdep ▸ hne))]
          rw [countP_filter_keep _ _ _ (fun v _ hp => by
            have hvdep : v.deploymentId = d'.id :=
              beq_iff_eq.mp ((Bool.and_eq_true _ _ ▸ hp).1)
            have hne' : (v.deploymentId == d.id) = false :=
              beq_eq_false_iff_ne.mpr (hvdep ▸ hne)
            simp [hne'])]
          rw [List.countP_eq_length_filter]
          exact hinv d' hmem.1
        | false =>
          have hres : (deployment_version_delete st true lf qs label).2.db =
              DB.mk st.db.deployments
                (st.db.versions.filter
                  (fun v => !(v.deploymentId == d.id && v.version == label)))
                st.db.nextDeploymentId st.db.nextVersionId := by
            unfold deployment_version_delete atomic versionsOf delete_hosted_version
            simp only [Bool.not_true, Bool.false_eq_true, if_false, hq, hd, hdel,
              ite_false]
          rw [hres]
          intro d' hd'
          have h1 : (st.db.versions.filter
              (fun v => v.deploymentId == d'.id && v.active)).length = 1 :=
            hinv d' hd'
          by_cases hcase : d'.id = d.id
          · rcases List.length_eq_one.mp h1 with ⟨act, hact⟩
            have hactmem : act ∈ st.db.versions ∧
                (act.deploymentId == d'.id && act.active) = true :=
              List.mem_filter.mp (by rw [hact]; exact List.mem_singleton.mpr rfl)
            have hactdep : act.deploymentId = d'.id :=
              beq_iff_eq.mp ((Bool.and_eq_true _ _ ▸ hactmem.2).1)
            have hactact : act.active = true :=
              (Bool.and_eq_true _ _ ▸ hactmem.2).2
            by_cases hlab : act.version = label
            · right
              constructor
              · show ((st.db.versions.filter
                    (fun v => !(v.deploymentId == d.id && v.version == label))).filter
                    (fun v => v.deploymentId == d'.id && v.active)).length = 0
                have hnil : (st.db.versions.filter
                    (fun v => !(v.deploymentId == d.id && v.version == label))).filter
                    (fun v => v.deploymentId == d'.id && v.active) = [] := by
                  apply List.filter_eq_nil_iff.mpr
                  intro v hv
                  intro hp
                  have hvrem := List.mem_filter.mp hv
                  have hvin : v ∈ st.db.versions.filter
                      (fun x => x.deploymentId == d'.id && x.active) :=
                    List.mem_filter.mpr ⟨hvrem.1, hp⟩
                  rw [hact] at hvin
                  have hveq : v = act := List.mem_singleton.mp hvin
                  subst hveq
                  have hrem := hvrem.2
                  simp [hactdep, hcase, hlab] at hrem
                rw [hnil]
                rfl
              · exact ⟨act, hactmem.1, hactdep, hactact, hlab⟩
            · left
              show ((st.db.versions.filter
                  (fun v => !(v.deploymentId == d.id && v.version == label))).filter
                  (fun v => v.deploymentId == d'.id && v.active)).length = 1
              rw [← List.countP_eq_length_filter]
              rw [countP_filter_keep _ _ _ (fun v hv hp => by
                have hvin : v ∈ st.db.versions.filter
                    (fun x => x.deploymentId == d'.id && x.active) :=
                  List.mem_filter.mpr ⟨hv, hp⟩
                rw [hact] at hvin
                have hveq : v = act := List.mem_singleton.mp hvin
                rw [hveq]
                simp [beq_eq_false_iff_ne.mpr hlab])]
              rw [List.countP_eq_length_filter]
              exact h1
          · left
            show ((st.db.versions.filter
                (fun v => !(v.deploymentId == d.id && v.version == label))).filter
                (fun v => v.deploymentId == d'.id && v.active)).length = 1
            rw [← List.countP_eq_length_filter]
            rw [countP_filter_keep _ _ _ (fun v _ hp => by
              have hvdep : v.deploymentId = d'.id :=
                beq_iff_eq.mp ((Bool.and_eq_true _ _ ▸ hp).1)
              have hne' : (v.deploymentId == d.id) = false :=
                beq_eq_false_iff_ne.mpr (by rw [hvdep]; exact hcase)
              simp [hne'])]
            rw [List.countP_eq_length_filter]
            exact h1

/-- Counterexample to C1 as stated: starting from the invariant-satisfying
two-version `blog` deployment (versions `v1` inactive, `v2` active), the
lifecycle operation DeleteVersion on the active `"v2"` leaves the deployment
in existence with ZERO active versions — the invariant "exactly one version
has active = true" is broken after a lifecycle operation. -/
theorem delete_active_version_breaks_invariant :
    Invariant exSt2.db ∧
    (deployment_version_delete exSt2 true (some "subdomain") "blog-sub" "v2").2
      = exSt3 ∧
    (⟨0, "blog", "blog-sub"⟩ : StaticDeployment) ∈ exSt3.db.deployments ∧
    activeCount exSt3.db 0 = 0 ∧
    ¬ Invariant exSt3.db :=
  ⟨by decide, rfl, by decide, by decide, by decide⟩

/-- C1 (amended): after InitialUpload, NewVersionUpload and DeleteDeployment,
every existing deployment has exactly one version with `active = true` (for a
well-formed database satisfying the invariant beforehand).  After
DeleteVersion, every existing deployment still has exactly one active version
EXCEPT that a deployment has zero active versions when the deleted label was
precisely its active version's label and other versions remain — the
operation does not re-designate an active version. -/
theorem lifecycle_active_version_invariant :
    (∀ (st : ServerState) (authed : Bool) (name subdomain version : String)
       (eok : Bool), WF st.db → Invariant st.db →
      Invariant (deployments_post st authed name subdomain version eok).2.db) ∧
    (∀ (st : ServerState) (authed : Bool) (lf : Option String)
       (qs label : String) (eok sok : Bool), WF st.db → Invariant st.db →
      Invariant (deployment_version_post st authed lf qs label eok sok).2.db) ∧
    (∀ (st : ServerState) (authed : Bool) (lf : Option String) (qs : String),
      Invariant st.db →
      Invariant (deployment_delete st authed lf qs).2.db) ∧
    (∀ (st : ServerState) (authed : Bool) (lf : Option String)
       (qs label : String), Invariant st.db →
      ∀ d' ∈ (deployment_version_delete st authed lf qs label).2.db.deployments,
        activeCount (deployment_version_delete st authed lf qs label).2.db d'.id
          = 1 ∨
        (activeCount (deployment_version_delete st authed lf qs label).2.db d'.id
          = 0 ∧
         ∃ act ∈ st.db.versions, act.deploymentId = d'.id ∧ act.active = true ∧
           act.version = label)) :=
  ⟨fun st a n s v e hwf hinv => invariant_deployments_post st a n s v e hwf hinv,
   fun st a lf qs l e k hwf hinv =>
     invariant_deployment_version_post st a lf qs l e k hwf hinv,
   fun st a lf qs hinv => invariant_deployment_delete st a lf qs hinv,
   fun st a lf qs l hinv => delete_version_active_char st a lf qs l hinv⟩

/-- Witness for C1 (amended) along the §8 scenario: each conjunct applied on
the concrete states. -/
theorem lifecycle_active_version_invariant_witness :
    Invariant (deployments_post emptyState true "blog" "blog-sub" "v1" true).2.db ∧
    Invariant (deployment_version_post exSt1 true (some "subdomain") "blog-sub"
      "v2" true true).2.db ∧
    Invariant (deployment_delete exSt2 true (some "name") "blog").2.db ∧
    (∀ d' ∈ (deployment_version_delete exSt2 true (some "subdomain") "blog-sub"
        "v2").2.db.deployments,
      activeCount (deployment_version_delete exSt2 true (some "subdomain")
        "blog-sub" "v2").2.db d'.id = 1 ∨
      (activeCount (deployment_version_delete exSt2 true (some "subdomain")
        "blog-sub" "v2").2.db d'.id = 0 ∧
       ∃ act ∈ exSt2.db.versions, act.deploymentId = d'.id ∧ act.active = true ∧
         act.version = "v2")) :=
  ⟨lifecycle_active_version_invariant.1 emptyState true "blog" "blog-sub" "v1"
      true (by decide) (by decide),
   lifecycle_active_version_invariant.2.1 exSt1 true (some "subdomain")
      "blog-sub" "v2" true true (by decide) (by decide),
   lifecycle_active_version_invariant.2.2.1 exSt2 true (some "name") "blog"
      (by decide),
   lifecycle_active_version_invariant.2.2.2 exSt2 true (some "subdomain")
      "blog-sub" "v2" (by decide)⟩

end Phost
